import Mathlib

/-
  Verification development for the BERT4rec-MAML repository.

  Shallow embedding of the two source files under scrutiny:
  - models/meta_loss_model.py : MetaStepLossNetwork, MetaLossNetwork,
    MetaTaskLstmNetwork, MetaTaskMLPNetwork;
  - pretrain.py : Pretrain.epoch_step, Pretrain.train, Pretrain.load,
    Pretrain._save_model.

  Network parameters and tensor entries are modelled as rationals (floats
  are rationals); the only real-valued operations of the code, softmax and
  sqrt, are modelled over the reals.
-/

namespace BertMaml

/-- ReLU activation: max x 0. -/
def relu (x : ℚ) : ℚ := max x 0

/-- Embedding of torch.nn.Linear with a weight matrix (out rows, in columns)
and a bias vector; forward computes W x + b. -/
structure Linear (nin nout : ℕ) where
  weight : Fin nout → Fin nin → ℚ
  bias : Fin nout → ℚ

def Linear.forward (l : Linear nin nout) (x : Fin nin → ℚ) : Fin nout → ℚ :=
  fun j => (∑ i, l.weight j i * x i) + l.bias j

/-- Embedding of MetaStepLossNetwork: num_loss_layers - 1 blocks of
Linear(h, h) followed by ReLU, then a final Linear(h, 1) with no activation.
The hidden blocks are modelled as the list of their Linear layers. -/
structure MetaStepLossNetwork (h : ℕ) where
  hidden : List (Linear h h)
  last : Linear h 1

/-- Forward of MetaStepLossNetwork: fold the Linear+ReLU blocks over the
input, then the final Linear layer. -/
def MetaStepLossNetwork.forward (net : MetaStepLossNetwork h) (x : Fin h → ℚ) :
    Fin 1 → ℚ :=
  net.last.forward (net.hidden.foldl (fun v l => fun i => relu (l.forward v i)) x)

/-- Indexing of a Python list (torch nn.ModuleList follows the same contract):
an index i is valid iff -len <= i < len, a negative index addresses from the
end, and an invalid index raises IndexError, modelled as none. -/
def pyListGet (xs : List α) (i : ℤ) : Option α :=
  if h : 0 ≤ i ∧ i < (xs.length : ℤ) then
    some (xs.get ⟨i.toNat, by omega⟩)
  else if h2 : -(xs.length : ℤ) ≤ i ∧ i < 0 then
    some (xs.get ⟨(i + xs.length).toNat, by omega⟩)
  else
    none

/-- Embedding of MetaLossNetwork: a flag use_step_loss and the ModuleList
loss_layers of MetaStepLossNetwork instances. -/
structure MetaLossNetwork (h : ℕ) where
  use_step_loss : Bool
  loss_layers : List (MetaStepLossNetwork h)

/-- Embedding of the MetaLossNetwork constructor: when use_step_loss,
loss_layers holds num_inner_steps independently initialised instances
(fresh i is the i-th fresh MetaStepLossNetwork); otherwise a single one. -/
def MetaLossNetwork.make (num_inner_steps : ℕ) (use_step_loss : Bool)
    (fresh : ℕ → MetaStepLossNetwork h) : MetaLossNetwork h :=
  { use_step_loss := use_step_loss
    loss_layers :=
      if use_step_loss then (List.range num_inner_steps).map fresh else [fresh 0] }

/-- Embedding of MetaLossNetwork.forward: dispatch on the step index through
the ModuleList when use_step_loss, else always index 0. none models an
IndexError escaping the call. -/
def MetaLossNetwork.forward (net : MetaLossNetwork h) (x : Fin h → ℚ) (step : ℤ) :
    Option (Fin 1 → ℚ) :=
  if net.use_step_loss then
    (pyListGet net.loss_layers step).map (fun n => n.forward x)
  else
    (pyListGet net.loss_layers 0).map (fun n => n.forward x)

/-- Embedding of the torch repeat of a (layers, width) parameter with
arguments (B, 1, 1): the parameter is tiled to shape (B, layers, width). -/
def repeatBatch (B : ℕ) (p : Fin L → Fin d → ℚ) : Fin B → Fin L → Fin d → ℚ :=
  fun _ l => p l

/-- Embedding of torch permute(1, 0, 2) on a rank 3 tensor. -/
def permute102 (t : Fin B → Fin L → Fin d → ℚ) : Fin L → Fin B → Fin d → ℚ :=
  fun l b => t b l

/-- Entrywise masked_fill: positions where the mask holds are overwritten
with the fill value v. -/
def maskedFill (s : Fin T → ℚ) (mask : Fin T → Bool) (v : ℚ) : Fin T → ℚ :=
  fun i => if mask i then v else s i

/-- The large negative sentinel written into masked positions before the
softmax, float(-98765) in the source. -/
def sentinel : ℚ := -98765

/-- Softmax of a row of scores along its only axis, over the reals. -/
noncomputable def softmaxRow (s : Fin T → ℚ) : Fin T → ℝ :=
  fun i => Real.exp ((s i : ℝ)) / ∑ j, Real.exp ((s j : ℝ))

/-- The padding mask of a raw token batch, computed on the raw ids before
any embedding: true exactly where the token equals the padding sentinel 0. -/
def padMask (x : Fin B → Fin T → ℕ) : Fin B → Fin T → Bool :=
  fun b t => x b t == 0

/-- Embedding of MetaTaskLstmNetwork. lstm_out_size is lstm_hidden when the
projection size lstm_out of the source is 0, else lstm_out. The embedding
table and the LSTM recurrence are external torch modules; they are carried
as opaque function fields, the LSTM one taking the embedded batch and the
broadcast initial states (h0, c0) and returning one output vector per
position. h0 and c0 are the two learned initial-state parameters. -/
structure MetaTaskLstmNetwork (input_size lstm_hidden num_lstm_layers lstm_out_size : ℕ) where
  embedding : ℕ → Fin input_size → ℚ
  h0 : Fin num_lstm_layers → Fin lstm_out_size → ℚ
  c0 : Fin num_lstm_layers → Fin lstm_hidden → ℚ
  lstm : (B T : ℕ) → (Fin B → Fin T → Fin input_size → ℚ) →
    (Fin num_lstm_layers → Fin B → Fin lstm_out_size → ℚ) →
    (Fin num_lstm_layers → Fin B → Fin lstm_hidden → ℚ) →
    Fin B → Fin T → Fin lstm_out_size → ℚ
  out_net : Linear lstm_out_size 1
  use_softmax : Bool

/-- Per-position scalar scores of MetaTaskLstmNetwork.forward: embed the raw
tokens, broadcast h0 and c0 across the batch with repeat and permute(1,0,2),
run the LSTM, apply out_net and squeeze the trailing singleton axis (the
(B, T, 1) to (B, T) squeeze, faithful when B and T differ from 1; the
singleton shapes are treated by the shape-level model below). -/
def MetaTaskLstmNetwork.scores (net : MetaTaskLstmNetwork ni nh nl no)
    (x : Fin B → Fin T → ℕ) : Fin B → Fin T → ℚ :=
  fun b t =>
    net.out_net.forward
      (net.lstm B T (fun b t => net.embedding (x b t))
        (permute102 (repeatBatch B net.h0)) (permute102 (repeatBatch B net.c0)) b t) 0

/-- Embedding of MetaTaskLstmNetwork.forward: if use_softmax, fill the
positions masked by the raw-id padding mask with the sentinel and softmax
each row along the sequence axis; otherwise take absolute values. -/
noncomputable def MetaTaskLstmNetwork.forward (net : MetaTaskLstmNetwork ni nh nl no)
    (x : Fin B → Fin T → ℕ) : Fin B → Fin T → ℝ :=
  if net.use_softmax then
    fun b => softmaxRow (maskedFill (net.scores x b) (padMask x b) sentinel)
  else
    fun b t => ((|net.scores x b t| : ℚ) : ℝ)

/-- State-passing reading of MetaTaskLstmNetwork.forward: the body reads the
parameters h0 and c0 and replicates them with repeat, an allocating op; no
statement assigns a module field and the only in-place op, masked_fill_,
acts on the fresh tensor returned by squeeze. The module handed back to the
caller therefore carries every field unchanged. -/
noncomputable def MetaTaskLstmNetwork.forwardS (net : MetaTaskLstmNetwork ni nh nl no)
    (x : Fin B → Fin T → ℕ) :
    MetaTaskLstmNetwork ni nh nl no × (Fin B → Fin T → ℝ) :=
  ({ embedding := net.embedding, h0 := net.h0, c0 := net.c0, lstm := net.lstm,
     out_net := net.out_net, use_softmax := net.use_softmax },
   net.forward x)

/-- Embedding of MetaTaskMLPNetwork: Linear(d, d), ReLU, Linear(d, 1). -/
structure MetaTaskMLPNetwork (d : ℕ) where
  lin1 : Linear d d
  lin2 : Linear d 1
  use_softmax : Bool

/-- The two-layer perceptron of MetaTaskMLPNetwork applied to one row. -/
def MetaTaskMLPNetwork.mlp (net : MetaTaskMLPNetwork d) (x : Fin d → ℚ) : Fin 1 → ℚ :=
  net.lin2.forward (fun i => relu (net.lin1.forward x i))

/-- Embedding of the non-softmax branch of MetaTaskMLPNetwork.forward on a
(B, d) batch: the perceptron output (B, 1) is squeezed to (B,) — faithful
when B differs from 1 — and passed through the absolute value; the padding
mask is not consulted in this branch. -/
def MetaTaskMLPNetwork.forwardAbs (net : MetaTaskMLPNetwork d)
    (x : Fin B → Fin d → ℚ) : Fin B → ℚ :=
  fun b => |net.mlp (x b) 0|

/-- Shape of a torch tensor, as its list of dimension sizes. squeeze()
drops every dimension of size one. -/
def squeezeShape (shape : List ℕ) : List ℕ := shape.filter (fun n => n ≠ 1)

/-- Validity of a softmax dimension argument on a tensor of the given shape:
torch accepts dim iff dim is below the rank, a rank 0 tensor counting as
rank 1; an invalid dim raises a dimension-out-of-range IndexError. -/
def softmaxDimValid (shape : List ℕ) (dim : ℕ) : Bool :=
  dim < max shape.length 1

/-- The two shape errors a softmax-branch forward can raise: the
RuntimeError of an in-place masked_fill_ whose mask does not broadcast to
the filled tensor, and the IndexError of a softmax dim argument out of
range. -/
inductive TorchError where
  | broadcastMismatch
  | dimOutOfRange
deriving DecidableEq

/-- Broadcast of one pair of aligned dimension sizes: equal sizes stand, a
size of one stretches, anything else is incompatible. -/
def broadcastDim (a b : ℕ) : Option ℕ :=
  if a = b then some a else if a = 1 then some b else if b = 1 then some a else none

/-- Broadcast of two shapes given with their dimensions reversed, so that
alignment starts from the trailing axis; a missing axis behaves as size
one. -/
def broadcastShapeRev : List ℕ → List ℕ → Option (List ℕ)
  | [], ys => some ys
  | xs, [] => some xs
  | x :: xs, y :: ys =>
    (broadcastDim x y).bind (fun d =>
      (broadcastShapeRev xs ys).map (fun rest => d :: rest))

/-- Torch broadcasting of two shapes: right-aligned, none on
incompatibility. -/
def broadcastShape (xs ys : List ℕ) : Option (List ℕ) :=
  (broadcastShapeRev xs.reverse ys.reverse).map List.reverse

/-- Validity of the in-place masked_fill_ of a tensor of shape tshape with
a mask of shape mshape: the mask must broadcast to exactly the shape of the
filled tensor, since an in-place op cannot grow its target; otherwise torch
raises a broadcast-shape RuntimeError. -/
def maskedFillInPlaceValid (tshape mshape : List ℕ) : Bool :=
  broadcastShape tshape mshape = some tshape

/-- Shape behaviour of the softmax branch of MetaTaskLstmNetwork.forward on
a (B, T) token batch: out_net yields shape (B, T, 1), squeeze drops the
singleton axes, the squeezed tensor is masked in place with the (B, T)
padding mask, and only then is softmax applied with dim 1. The first shape
check that fails decides the raised error. -/
def lstmSoftmaxOutputShape (B T : ℕ) : Except TorchError (List ℕ) :=
  let s := squeezeShape [B, T, 1]
  if maskedFillInPlaceValid s [B, T] then
    if softmaxDimValid s 1 then Except.ok s else Except.error TorchError.dimOutOfRange
  else Except.error TorchError.broadcastMismatch

/-- Output shape of the non-softmax branch of MetaTaskLstmNetwork.forward on
a (B, T) token batch: out_net yields (B, T, 1) and squeeze drops the
singleton axes; no mask is applied in this branch. -/
def lstmAbsOutputShape (B T : ℕ) : List ℕ := squeezeShape [B, T, 1]

/-- Shape behaviour of the softmax branch of MetaTaskMLPNetwork.forward on
a (B, d) batch: the perceptron yields shape (B, 1), squeeze drops the
singleton axes, the result is masked in place with the (B, d) mask of the
input, then softmax with dim 1. The first shape check that fails decides
the raised error. -/
def mlpSoftmaxOutputShape (B d : ℕ) : Except TorchError (List ℕ) :=
  let s := squeezeShape [B, 1]
  if maskedFillInPlaceValid s [B, d] then
    if softmaxDimValid s 1 then Except.ok s else Except.error TorchError.dimOutOfRange
  else Except.error TorchError.broadcastMismatch

/-- Mean squared error of nn.MSELoss over a flat batch: mean of the
squared differences. -/
def mseLoss (output target : List ℚ) : ℚ :=
  ((output.zip target).map (fun p => (p.1 - p.2) ^ 2)).sum / output.length

/-- Mean absolute error of nn.L1Loss over a flat batch. -/
def maeLoss (output target : List ℚ) : ℚ :=
  ((output.zip target).map (fun p => |p.1 - p.2|)).sum / output.length

/-- The four per-batch quantities computed inside the loop body of
Pretrain.epoch_step: the primary trainable loss and the three monitoring
values mse_loss, mae_loss and rmse_loss. -/
structure BatchLosses where
  loss : ℚ
  mse : ℚ
  mae : ℚ
  rmse : ℝ

/-- Embedding of one loop body of Pretrain.epoch_step, given the model
outputs and the target ratings of the batch. The scale factor is the
constant 5.0 of the source. When normalize_loss, the primary loss compares
the outputs against target / 5 while the monitoring values compare the
detached outputs rescaled by 5 against the raw target; otherwise all
compare outputs against target. rmse_loss is torch.sqrt of mse_loss. -/
noncomputable def batchStep (normalize_loss : Bool) (outputs target : List ℚ) :
    BatchLosses :=
  if normalize_loss then
    { loss := mseLoss outputs (target.map (fun r => r / 5))
      mse := mseLoss (outputs.map (fun o => o * 5)) target
      mae := maeLoss (outputs.map (fun o => o * 5)) target
      rmse := Real.sqrt ((mseLoss (outputs.map (fun o => o * 5)) target : ℝ)) }
  else
    { loss := mseLoss outputs target
      mse := mseLoss outputs target
      mae := maeLoss outputs target
      rmse := Real.sqrt ((mseLoss outputs target : ℝ)) }

/-- Arithmetic mean of a list of rationals (np.mean). -/
def listMean (xs : List ℚ) : ℚ := xs.sum / xs.length

/-- Arithmetic mean of a list of reals (np.mean). -/
noncomputable def listMeanR (xs : List ℝ) : ℝ := xs.sum / xs.length

/-- The epoch-level triple returned by Pretrain.epoch_step. -/
structure EpochMetrics where
  mse : ℚ
  mae : ℚ
  rmse : ℝ

/-- Embedding of Pretrain.epoch_step over the data of an epoch, each batch
given as the pair (model outputs, target ratings): the per-batch monitoring
values are appended to lists and the returned triple is their arithmetic
means. -/
noncomputable def epochStep (normalize_loss : Bool)
    (batches : List (List ℚ × List ℚ)) : EpochMetrics :=
  { mse := listMean (batches.map (fun b => (batchStep normalize_loss b.1 b.2).mse))
    mae := listMean (batches.map (fun b => (batchStep normalize_loss b.1 b.2).mae))
    rmse := listMeanR (batches.map (fun b => (batchStep normalize_loss b.1 b.2).rmse)) }

/-- The VAL_INTERVAL constant of pretrain.py. -/
def VAL_INTERVAL : ℕ := 10

/-- The mutable run state of Pretrain touched by the training loop: the
best validation rmse so far, the epoch of the last checkpoint, the global
step counter, and the keys under which _save_model persisted the base model
parameters (most recent first; torch.save to the path save_dir/train_step). -/
structure TrainState where
  best_valid_rmse_loss : ℚ
  best_step : ℕ
  train_step : ℕ
  saved : List ℕ

/-- The state set up by Pretrain constructor: best_valid_rmse_loss is the
987654321 sentinel, best_step and the step counter are 0, nothing saved. -/
def initTrainState : TrainState :=
  { best_valid_rmse_loss := 987654321, best_step := 0, train_step := 0, saved := [] }

/-- Embedding of one iteration of the epoch loop of Pretrain.train.
trainRmse e is the rmse_loss returned by epoch_step on the training loader
at epoch e, and validRmse e the one produced by the validation pass. On a
validation epoch (e % VAL_INTERVAL == 0) the source calls epoch_step on the
validation loader but does not bind its returned triple, so the comparison
against best_valid_rmse_loss below reads the training rmse_loss; on a strict
improvement it updates best_valid_rmse_loss, sets best_step to the epoch and
saves under the key train_step. The step counter advances every epoch. -/
def trainEpoch (trainRmse validRmse : ℕ → ℚ) (epoch : ℕ) (s : TrainState) :
    TrainState :=
  let rmse_loss := trainRmse epoch
  let _discarded := validRmse epoch
  let s1 :=
    if epoch % VAL_INTERVAL = 0 then
      if s.best_valid_rmse_loss > rmse_loss then
        { s with best_valid_rmse_loss := rmse_loss, best_step := epoch,
                 saved := s.train_step :: s.saved }
      else s
    else s
  { s1 with train_step := s1.train_step + 1 }

/-- Embedding of Pretrain.train over n epochs, starting from the
constructor state. -/
def trainLoop (trainRmse validRmse : ℕ → ℚ) : ℕ → TrainState
  | 0 => initTrainState
  | n + 1 => trainEpoch trainRmse validRmse n (trainLoop trainRmse validRmse n)

/-- The error raised by Pretrain.load when no checkpoint is stored under the
requested step: ValueError, the CheckpointNotFound class of the spec. -/
structure CheckpointNotFound where
  step : ℕ

/-- Embedding of _save_model: write the base model parameters under the key
train_step; a later entry under the same key shadows an earlier one. -/
def saveModel (store : List (ℕ × P)) (key : ℕ) (params : P) : List (ℕ × P) :=
  (key, params) :: store

/-- Embedding of Pretrain.load: torch.load of the path save_dir/step fails
exactly when no blob was stored under the key step, the bare except turns
the failure into the CheckpointNotFound-class ValueError, and in that case
load_state_dict is never reached, so the current parameters are handed back
untouched; otherwise the stored parameters are installed. The first
component is the parameter state after the call, the second the raised
error if any. -/
def load (store : List (ℕ × P)) (current : P) (step : ℕ) :
    P × Option CheckpointNotFound :=
  match store.lookup step with
  | some p => (p, none)
  | none => (current, some ⟨step⟩)

/-- A concrete family of MetaStepLossNetwork instances over width 1: no
hidden block, final layer with weight equal to the construction index and
bias 0; used to instantiate theorems at concrete networks. -/
def freshNet (i : ℕ) : MetaStepLossNetwork 1 :=
  { hidden := [], last := { weight := fun _ _ => (i : ℚ), bias := fun _ => 0 } }


/-- C6: a LossNetwork configured without step-specific instances ignores the
step index: forward on the same hidden input agrees for every pair of step
indices, both evaluating the single shared instance at list index 0. -/
theorem shared_loss_network_ignores_step (net : MetaLossNetwork h)
    (hn : net.use_step_loss = false) (x : Fin h → ℚ) (i j : ℤ) :
    net.forward x i = net.forward x j ∧
    net.forward x i = (pyListGet net.loss_layers 0).map (fun n => n.forward x) := by
  unfold MetaLossNetwork.forward
  rw [hn]
  simp

/-- Witness for C6 at a concrete three-step network and step indices 0, 2. -/
theorem shared_loss_network_ignores_step_witness :
    (MetaLossNetwork.make 3 false freshNet).forward (fun _ => 1) 0 =
      (MetaLossNetwork.make 3 false freshNet).forward (fun _ => 1) 2 :=
  (shared_loss_network_ignores_step (MetaLossNetwork.make 3 false freshNet) rfl
    (fun _ => 1) 0 2).1


/-- C5 counterexample: with use_step_loss true and two instances, the step
index -1 lies outside the configured range [0, 2) yet forward does not fail
with an IndexError: Python negative indexing sends it to the instance at
index 1. -/
theorem step_loss_negative_index_no_error :
    ((-1 : ℤ) < 0 ∨ (2 : ℤ) ≤ (-1 : ℤ)) ∧
    (MetaLossNetwork.make 2 true freshNet).forward (fun _ => 1) (-1) =
      some ((freshNet 1).forward (fun _ => 1)) := by
  exact ⟨Or.inl (by norm_num), rfl⟩

/-- C5 amended: for a step-specific LossNetwork with n instances, forward
fails with an IndexError exactly when the step index lies outside [-n, n),
and every step index in [0, n) dispatches to the independent instance at
that index. -/
theorem step_loss_dispatch_amended (n : ℕ) (fresh : ℕ → MetaStepLossNetwork h)
    (x : Fin h → ℚ) (step : ℤ) :
    ((MetaLossNetwork.make n true fresh).forward x step = none ↔
      step < -(n : ℤ) ∨ (n : ℤ) ≤ step) ∧
    (0 ≤ step → step < (n : ℤ) →
      (MetaLossNetwork.make n true fresh).forward x step =
        some ((fresh step.toNat).forward x)) := by
  have hlen : ((List.range n).map fresh).length = n := by simp
  constructor
  · simp only [MetaLossNetwork.forward, MetaLossNetwork.make, if_true, pyListGet, hlen]
    split_ifs with h1 h2 <;> simp <;> omega
  · intro hs0 hsn
    simp only [MetaLossNetwork.forward, MetaLossNetwork.make, if_true, pyListGet, hlen]
    rw [dif_pos ⟨hs0, hsn⟩]
    have hlt : step.toNat < n := by omega
    simp [List.get_eq_getElem, List.getElem_map, List.getElem_range, hlt]

/-- Witness for the amended C5 at a concrete two-instance network: step
index 1 is in range and dispatches to instance 1. -/
theorem step_loss_dispatch_amended_witness :
    (MetaLossNetwork.make 2 true freshNet).forward (fun _ => 1) 1 =
      some ((freshNet 1).forward (fun _ => 1)) :=
  (step_loss_dispatch_amended 2 freshNet (fun _ => 1) 1).2 (by norm_num) (by norm_num)


/-- C7: the per-batch loss computations of epoch_step. With normalize_loss
the primary trainable loss is the MSE of the outputs against target / 5,
while the monitoring MSE and MAE compare the detached outputs rescaled by 5
against the raw target; without normalize_loss the monitoring MSE equals the
primary computation, the MSE of the outputs against the raw target. -/
theorem batch_loss_scale_convention (outputs target : List ℚ) :
    (batchStep true outputs target).loss = mseLoss outputs (target.map (fun r => r / 5)) ∧
    (batchStep true outputs target).mse = mseLoss (outputs.map (fun o => o * 5)) target ∧
    (batchStep true outputs target).mae = maeLoss (outputs.map (fun o => o * 5)) target ∧
    (batchStep false outputs target).mse = (batchStep false outputs target).loss ∧
    (batchStep false outputs target).loss = mseLoss outputs target :=
  ⟨rfl, rfl, rfl, rfl, rfl⟩


/-- C4: load raises the CheckpointNotFound-class error exactly when no
checkpoint is stored under the requested key, and whenever it raises, the
model parameters after the call equal the parameters before it. -/
theorem load_missing_checkpoint (store : List (ℕ × P)) (current : P) (step : ℕ) :
    ((load store current step).2.isSome = true ↔ store.lookup step = none) ∧
    ((load store current step).2.isSome = true → (load store current step).1 = current) := by
  unfold load
  cases h : store.lookup step <;> simp

/-- Witness for C4: a store holding only key 0; loading key 7 raises and
keeps the current parameters. -/
theorem load_missing_checkpoint_witness :
    (load (saveModel ([] : List (ℕ × ℚ)) 0 1) 2 7).2.isSome = true ∧
    (load (saveModel ([] : List (ℕ × ℚ)) 0 1) 2 7).1 = 2 := by
  have h := load_missing_checkpoint (saveModel ([] : List (ℕ × ℚ)) 0 1) 2 7
  exact ⟨h.1.mpr rfl, h.2 (h.1.mpr rfl)⟩


/-- C9: the forward pass of the sequence weighting network hands the module back with
the learned initial-state parameters h0 and c0 unchanged, and the broadcast
initial state fed to the LSTM at any batch element is exactly the stored
parameter row — identical across batch elements and independent of the
batch size. -/
theorem lstm_initial_state_preserved (net : MetaTaskLstmNetwork ni nh nl no)
    (x : Fin B → Fin T → ℕ) :
    ((net.forwardS x).1.h0 = net.h0 ∧ (net.forwardS x).1.c0 = net.c0) ∧
    (∀ (B2 : ℕ) (l : Fin nl) (b b2 : Fin B2),
      permute102 (repeatBatch B2 net.h0) l b = net.h0 l ∧
      permute102 (repeatBatch B2 net.c0) l b = net.c0 l ∧
      permute102 (repeatBatch B2 net.h0) l b = permute102 (repeatBatch B2 net.h0) l b2) :=
  ⟨⟨rfl, rfl⟩, fun _ _ _ _ => ⟨rfl, rfl, rfl⟩⟩


/-- C10 counterexample: on a one-row batch the softmax branch of either
weighting network fails at the in-place masked_fill_, whose rank 2 mask
cannot be broadcast onto the batch-axis-dropped squeezed tensor, so the
raised error is the broadcast-shape RuntimeError and not the claimed
dimension-out-of-range softmax error, which is never reached. -/
theorem single_row_error_is_masked_fill :
    lstmSoftmaxOutputShape 1 5 = Except.error TorchError.broadcastMismatch ∧
    mlpSoftmaxOutputShape 1 3 = Except.error TorchError.broadcastMismatch ∧
    (Except.error TorchError.broadcastMismatch : Except TorchError (List ℕ)) ≠
      Except.error TorchError.dimOutOfRange := by
  refine ⟨rfl, rfl, by simp⟩

/-- C10 amended: on a single-row batch the squeeze after the scalar
projection also drops the batch axis, so in softmax mode both weighting
networks do not return a weight vector of the input length but fail — at
the in-place masked_fill_, whose (1, T) mask (respectively (1, d) for the
vector network) cannot be broadcast onto the squeezed tensor, before the
softmax runs; in the non-softmax mode, which applies no mask, the sequence
network returns shape (T,), the batch axis gone. With more than one row the
softmax mode of the sequence network is well formed. -/
theorem single_row_batch_masked_fill_error (T : ℕ) (hT : 1 < T) :
    lstmSoftmaxOutputShape 1 T = Except.error TorchError.broadcastMismatch ∧
    lstmAbsOutputShape 1 T = [T] ∧
    (∀ d, mlpSoftmaxOutputShape 1 d = Except.error TorchError.broadcastMismatch) ∧
    (∀ B, 1 < B → lstmSoftmaxOutputShape B T = Except.ok [B, T]) := by
  have hT1 : T ≠ 1 := by omega
  refine ⟨?_, ?_, ?_, ?_⟩
  · simp [lstmSoftmaxOutputShape, squeezeShape, maskedFillInPlaceValid, broadcastShape,
      broadcastShapeRev, broadcastDim, hT1]
  · simp [lstmAbsOutputShape, squeezeShape, hT1]
  · intro d
    simp [mlpSoftmaxOutputShape, squeezeShape, maskedFillInPlaceValid, broadcastShape,
      broadcastShapeRev, broadcastDim]
  · intro B hB
    have hB1 : B ≠ 1 := by omega
    simp [lstmSoftmaxOutputShape, squeezeShape, maskedFillInPlaceValid, broadcastShape,
      broadcastShapeRev, broadcastDim, softmaxDimValid, hT1, hB1]

/-- Witness for the amended C10 at sequence length 5, feature width 3 and
batch sizes 1 and 2. -/
theorem single_row_batch_masked_fill_error_witness :
    lstmAbsOutputShape 1 5 = [5] ∧
    mlpSoftmaxOutputShape 1 3 = Except.error TorchError.broadcastMismatch ∧
    lstmSoftmaxOutputShape 2 5 = Except.ok [2, 5] := by
  have h := single_row_batch_masked_fill_error 5 (by norm_num)
  exact ⟨h.2.1, h.2.2.1 3, h.2.2.2 2 (by norm_num)⟩

/-- Per-batch rmse_loss is sqrt of per-batch mse_loss, in both scale modes. -/
theorem batchStep_rmse_eq (normalize_loss : Bool) (outputs target : List ℚ) :
    (batchStep normalize_loss outputs target).rmse =
      Real.sqrt (((batchStep normalize_loss outputs target).mse : ℝ)) := by
  cases normalize_loss <;> rfl

/-- C2 amended: the reported epoch-level RMSE is the arithmetic mean of the
per-batch values sqrt(batch MSE); for a single-batch epoch it coincides
with sqrt of the reported epoch-level MSE, which is the general shape the
original claim asserts. -/
theorem epoch_rmse_mean_of_sqrt (normalize_loss : Bool)
    (batches : List (List ℚ × List ℚ)) (b : List ℚ × List ℚ) :
    (epochStep normalize_loss batches).rmse =
      listMeanR (batches.map (fun p =>
        Real.sqrt (((batchStep normalize_loss p.1 p.2).mse : ℝ)))) ∧
    (epochStep normalize_loss [b]).rmse =
      Real.sqrt (((epochStep normalize_loss [b]).mse : ℝ)) := by
  constructor
  · simp [epochStep, batchStep_rmse_eq]
  · simp [epochStep, listMean, listMeanR, batchStep_rmse_eq]

/-- C2 counterexample: with two one-example batches of squared error 1 and
9, the reported epoch RMSE is (1 + 3) / 2 = 2 while sqrt of the reported
epoch MSE is sqrt 5, and the two differ. -/
theorem epoch_rmse_not_sqrt_mse :
    (epochStep false [([1], [0]), ([3], [0])]).rmse ≠
      Real.sqrt (((epochStep false [([1], [0]), ([3], [0])]).mse : ℝ)) := by
  have hmse : (epochStep false [([1], [0]), ([3], [0])]).mse = 5 := by
    norm_num [epochStep, batchStep, mseLoss, listMean]
  have h9 : Real.sqrt 9 = 3 := by
    rw [show (9 : ℝ) = 3 ^ 2 by norm_num]
    exact Real.sqrt_sq (by norm_num)
  have hrmse : (epochStep false [([1], [0]), ([3], [0])]).rmse = 2 := by
    have h1 : ((mseLoss [1] [0] : ℚ) : ℝ) = 1 := by norm_num [mseLoss]
    have h3 : ((mseLoss [3] [0] : ℚ) : ℝ) = 9 := by norm_num [mseLoss]
    simp only [epochStep, batchStep, listMeanR, if_neg Bool.false_ne_true]
    simp only [List.map_cons, List.map_nil, h1, h3]
    rw [List.sum_cons, List.sum_cons, List.sum_nil, h9, Real.sqrt_one]
    norm_num
  rw [hrmse, hmse]
  have h5 : ((5 : ℚ) : ℝ) = 5 := by norm_num
  rw [h5]
  intro h
  have h4 := (Real.sqrt_eq_iff_mul_self_eq (by norm_num) (by norm_num)).mp h.symm
  norm_num at h4


/-- Training-pass rmse values of the C1 failing input: 5 at every epoch
except 6 at epoch 10. -/
def trainRmseEx (e : ℕ) : ℚ := if e = 10 then 6 else 5

/-- Validation-pass rmse values of the C1 failing input: 5 at every epoch
except 1 at epoch 10. -/
def validRmseEx (e : ℕ) : ℚ := if e = 10 then 1 else 5

/-- C1: evaluation of the training loop at the failing input. Before epoch
10 the best value is 5; at epoch 10 the validation pass returns rmse 1,
a strict improvement, so the claim demands a checkpoint there. The code
discards the returned triple of the validation pass and compares the
training rmse 6 instead, so after 11 epochs the only checkpoint written is
the one of epoch 0 and best_step is still 0. -/
theorem checkpoint_gate_reads_training_rmse :
    validRmseEx 10 < (trainLoop trainRmseEx validRmseEx 10).best_valid_rmse_loss ∧
    (trainLoop trainRmseEx validRmseEx 11).saved = [0] ∧
    (trainLoop trainRmseEx validRmseEx 11).best_step = 0 := by
  refine ⟨by decide, by decide, by decide⟩

/-- The denominator of a softmax row is positive as soon as the row is
inhabited. -/
theorem sum_exp_pos (s : Fin T → ℚ) (i0 : Fin T) :
    0 < ∑ j, Real.exp ((s j : ℝ)) :=
  Finset.sum_pos (fun _ _ => Real.exp_pos _) ⟨i0, Finset.mem_univ i0⟩

/-- Softmax entries are nonnegative. -/
theorem softmaxRow_nonneg (s : Fin T → ℚ) (i0 i : Fin T) :
    0 ≤ softmaxRow s i :=
  div_nonneg (Real.exp_pos _).le (sum_exp_pos s i0).le

/-- A softmax row sums to one. -/
theorem softmaxRow_sum_one (s : Fin T → ℚ) (i0 : Fin T) :
    ∑ i, softmaxRow s i = 1 := by
  unfold softmaxRow
  rw [← Finset.sum_div]
  exact div_self (ne_of_gt (sum_exp_pos s i0))

/-- The numeric slack of the sentinel: exp (-89765) is far below 1e-6. -/
theorem exp_sentinel_slack : Real.exp (-89765 : ℝ) < 1 / 1000000 := by
  have he : (2 : ℝ) ≤ Real.exp 1 := le_of_lt (lt_trans (by norm_num) Real.exp_one_gt_d9)
  have hp : (2 : ℝ) ^ (20 : ℕ) ≤ Real.exp 1 ^ (20 : ℕ) :=
    pow_le_pow_left₀ (by norm_num) he 20
  have hexp20 : (1048576 : ℝ) ≤ Real.exp 20 := by
    have hmul : Real.exp ((20 : ℕ) * (1 : ℝ)) = Real.exp 1 ^ (20 : ℕ) :=
      Real.exp_nat_mul 1 20
    have h20 : ((20 : ℕ) * (1 : ℝ)) = (20 : ℝ) := by norm_num
    calc (1048576 : ℝ) = 2 ^ (20 : ℕ) := by norm_num
    _ ≤ Real.exp 1 ^ (20 : ℕ) := hp
    _ = Real.exp 20 := by rw [← hmul, h20]
  have hmono : Real.exp (-89765 : ℝ) ≤ Real.exp (-20 : ℝ) :=
    Real.exp_le_exp.mpr (by norm_num)
  have hneg : Real.exp (-20 : ℝ) = (Real.exp 20)⁻¹ := Real.exp_neg 20
  have hinv : (Real.exp 20)⁻¹ ≤ (1048576 : ℝ)⁻¹ := by
    apply inv_anti₀ (by norm_num) hexp20
  calc Real.exp (-89765 : ℝ) ≤ (Real.exp 20)⁻¹ := by rw [← hneg]; exact hmono
  _ ≤ (1048576 : ℝ)⁻¹ := hinv
  _ < 1 / 1000000 := by norm_num

/-- Any position filled with the sentinel receives softmax weight below
1e-6, provided some unfilled position carries a score at least -9000. -/
theorem softmaxRow_sentinel_lt (s : Fin T → ℚ) (mask : Fin T → Bool) (t0 : Fin T)
    (h0 : mask t0 = false) (hs0 : -9000 ≤ s t0) (t : Fin T) (ht : mask t = true) :
    softmaxRow (maskedFill s mask sentinel) t < 1 / 1000000 := by
  set f := maskedFill s mask sentinel with hf
  have hft : f t = sentinel := by simp [hf, maskedFill, ht]
  have hft0 : f t0 = s t0 := by simp [hf, maskedFill, h0]
  have hDpos : 0 < ∑ j, Real.exp ((f j : ℝ)) := sum_exp_pos f t0
  have hD : Real.exp ((s t0 : ℝ)) ≤ ∑ j, Real.exp ((f j : ℝ)) := by
    have hone := Finset.single_le_sum (f := fun j => Real.exp ((f j : ℝ)))
      (fun _ _ => le_of_lt (Real.exp_pos _)) (Finset.mem_univ t0)
    simpa only [hft0] using hone
  have hsent : ((f t : ℚ) : ℝ) = -98765 := by rw [hft]; norm_num [sentinel]
  have hcast : (-9000 : ℝ) ≤ ((s t0 : ℚ) : ℝ) := by exact_mod_cast hs0
  unfold softmaxRow
  rw [hsent]
  have hstep1 : Real.exp (-98765 : ℝ) / (∑ j, Real.exp ((f j : ℝ))) ≤
      Real.exp (-98765 : ℝ) / Real.exp ((s t0 : ℝ)) := by
    gcongr
  have hstep2 : Real.exp (-98765 : ℝ) / Real.exp ((s t0 : ℝ)) =
      Real.exp (-98765 - (s t0 : ℝ)) := (Real.exp_sub _ _).symm
  have hstep3 : Real.exp (-98765 - (s t0 : ℝ)) ≤ Real.exp (-89765 : ℝ) :=
    Real.exp_le_exp.mpr (by linarith)
  calc Real.exp (-98765 : ℝ) / (∑ j, Real.exp ((f j : ℝ)))
      ≤ Real.exp (-98765 : ℝ) / Real.exp ((s t0 : ℝ)) := hstep1
  _ = Real.exp (-98765 - (s t0 : ℝ)) := hstep2
  _ ≤ Real.exp (-89765 : ℝ) := hstep3
  _ < 1 / 1000000 := exp_sentinel_slack

/-- C3: softmax-mode weighting of a row holding at least one non-padding
token. The output row is the softmax of the per-position scores after the
positions of the raw-id padding mask, computed before embedding, are
overwritten with the large negative sentinel; provided the score surviving
at one non-padding position is at least -9000 (any bound enormously above
the sentinel does), every padding position receives weight below 1e-6 and
the weights at the non-padding positions sum to 1 within T * 1e-6. -/
theorem softmax_mask_weights (net : MetaTaskLstmNetwork ni nh nl no)
    (hs : net.use_softmax = true) (x : Fin B → Fin T → ℕ) (b : Fin B)
    (t0 : Fin T) (ht0 : x b t0 ≠ 0) (hscore : -9000 ≤ net.scores x b t0) :
    net.forward x b = softmaxRow (maskedFill (net.scores x b) (padMask x b) sentinel) ∧
    (∀ t, x b t = 0 → net.forward x b t < 1 / 1000000) ∧
    |(∑ t ∈ Finset.univ.filter (fun t => x b t ≠ 0), net.forward x b t) - 1| <
      (T : ℝ) * (1 / 1000000) := by
  have hmask0 : padMask x b t0 = false := by simp [padMask, ht0]
  have hforward : net.forward x b =
      softmaxRow (maskedFill (net.scores x b) (padMask x b) sentinel) := by
    simp [MetaTaskLstmNetwork.forward, hs]
  refine ⟨hforward, ?_, ?_⟩
  · intro t ht
    have hmt : padMask x b t = true := by simp [padMask, ht]
    rw [hforward]
    exact softmaxRow_sentinel_lt (net.scores x b) (padMask x b) t0 hmask0 hscore t hmt
  · rw [hforward]
    set w := softmaxRow (maskedFill (net.scores x b) (padMask x b) sentinel) with hw
    have htotal : ∑ t, w t = 1 := softmaxRow_sum_one _ t0
    have hsplit := Finset.sum_filter_add_sum_filter_not Finset.univ
      (fun t => x b t = 0) w
    have hmle : ∀ t ∈ Finset.univ.filter (fun t => x b t = 0), w t ≤ 1 / 1000000 := by
      intro t htm
      have ht : x b t = 0 := (Finset.mem_filter.mp htm).2
      have hmt : padMask x b t = true := by simp [padMask, ht]
      exact le_of_lt (softmaxRow_sentinel_lt _ _ t0 hmask0 hscore t hmt)
    have hmaskcard : (Finset.univ.filter (fun t => x b t = 0)).card < T := by
      have hne : Finset.univ.filter (fun t => x b t = 0) ≠ Finset.univ := by
        intro hEq
        have hmem : t0 ∈ Finset.univ.filter (fun t => x b t = 0) := by
          rw [hEq]; exact Finset.mem_univ t0
        exact ht0 (Finset.mem_filter.mp hmem).2
      have hss : Finset.univ.filter (fun t => x b t = 0) ⊂ Finset.univ :=
        Finset.ssubset_univ_iff.mpr hne
      have hcard := Finset.card_lt_card hss
      simpa using hcard
    have hmsum_le : ∑ t ∈ Finset.univ.filter (fun t => x b t = 0), w t ≤
        ((Finset.univ.filter (fun t => x b t = 0)).card : ℝ) * (1 / 1000000) := by
      have hcn := Finset.sum_le_card_nsmul
        (Finset.univ.filter (fun t => x b t = 0)) w (1 / 1000000) hmle
      simpa [nsmul_eq_mul] using hcn
    have hmsum_lt : ∑ t ∈ Finset.univ.filter (fun t => x b t = 0), w t <
        (T : ℝ) * (1 / 1000000) := by
      calc ∑ t ∈ Finset.univ.filter (fun t => x b t = 0), w t
          ≤ ((Finset.univ.filter (fun t => x b t = 0)).card : ℝ) * (1 / 1000000) :=
            hmsum_le
      _ < (T : ℝ) * (1 / 1000000) :=
            mul_lt_mul_of_pos_right (by exact_mod_cast hmaskcard) (by norm_num)
    have hmsum_nonneg : 0 ≤ ∑ t ∈ Finset.univ.filter (fun t => x b t = 0), w t :=
      Finset.sum_nonneg (fun t _ => softmaxRow_nonneg _ t0 t)
    have hval : ∑ t ∈ Finset.univ.filter (fun t => x b t ≠ 0), w t =
        1 - ∑ t ∈ Finset.univ.filter (fun t => x b t = 0), w t := by
      have hnot : Finset.univ.filter (fun t => x b t ≠ 0) =
          Finset.univ.filter (fun t => ¬(x b t = 0)) := by
        apply Finset.filter_congr
        intro t _
        simp
      rw [hnot]
      linarith [hsplit, htotal]
    rw [hval, show (1 - ∑ t ∈ Finset.univ.filter (fun t => x b t = 0), w t) - 1 =
      -(∑ t ∈ Finset.univ.filter (fun t => x b t = 0), w t) by ring, abs_neg,
      abs_of_nonneg hmsum_nonneg]
    exact hmsum_lt

/-- A concrete sequence weighting network in softmax mode: zero embedding,
zero initial states, zero LSTM recurrence and zero projection head. -/
def lstmNetEx : MetaTaskLstmNetwork 1 1 1 1 :=
  { embedding := fun _ _ => 0
    h0 := fun _ _ => 0
    c0 := fun _ _ => 0
    lstm := fun _ _ _ _ _ => fun _ _ _ => 0
    out_net := { weight := fun _ _ => 0, bias := fun _ => 0 }
    use_softmax := true }

/-- The token batch of the C3 witness: two rows of length two, position 0
holding the real token 3 and position 1 holding padding. -/
def xEx : Fin 2 → Fin 2 → ℕ := fun _ t => if t = 0 then 3 else 0

/-- Witness for C3 at the concrete softmax network lstmNetEx, batch xEx,
row 0 and non-padding position 0. -/
theorem softmax_mask_weights_witness :
    (lstmNetEx.forward xEx 0 =
      softmaxRow (maskedFill (lstmNetEx.scores xEx 0) (padMask xEx 0) sentinel)) ∧
    (∀ t, xEx 0 t = 0 → lstmNetEx.forward xEx 0 t < 1 / 1000000) ∧
    |(∑ t ∈ Finset.univ.filter (fun t => xEx 0 t ≠ 0), lstmNetEx.forward xEx 0 t) - 1| <
      ((2 : ℕ) : ℝ) * (1 / 1000000) :=
  softmax_mask_weights lstmNetEx rfl xEx 0 0 (by decide)
    (by norm_num [MetaTaskLstmNetwork.scores, lstmNetEx, Linear.forward])


/-- A concrete sequence weighting network in absolute-value mode whose
projection head has bias 1, so every per-position score is 1. -/
def lstmNetAbsEx : MetaTaskLstmNetwork 1 1 1 1 :=
  { embedding := fun _ _ => 0
    h0 := fun _ _ => 0
    c0 := fun _ _ => 0
    lstm := fun _ _ _ _ _ => fun _ _ _ => 0
    out_net := { weight := fun _ _ => 0, bias := fun _ => 1 }
    use_softmax := false }

/-- An all-padding token batch of two rows of length two. -/
def xPadEx : Fin 2 → Fin 2 → ℕ := fun _ _ => 0

/-- C8: in absolute-value mode every output entry of either weighting
network is nonnegative; the output of the sequence network is exactly the
absolute value of the raw scores, the padding mask never being consulted in
this branch; and a padding position can receive nonzero weight: in the
concrete network lstmNetAbsEx the all-padding batch xPadEx gets weight 1 at
a padding position. -/
theorem abs_mode_nonneg_no_mask (net : MetaTaskLstmNetwork ni nh nl no)
    (hns : net.use_softmax = false) (x : Fin B → Fin T → ℕ) (b : Fin B) (t : Fin T)
    (netm : MetaTaskMLPNetwork d) (y : Fin B2 → Fin d → ℚ) (b2 : Fin B2) :
    0 ≤ net.forward x b t ∧
    net.forward x b t = ((|net.scores x b t| : ℚ) : ℝ) ∧
    0 ≤ netm.forwardAbs y b2 ∧
    (xPadEx 0 0 = 0 ∧ lstmNetAbsEx.forward xPadEx 0 0 = 1) := by
  have habs : net.forward x b t = ((|net.scores x b t| : ℚ) : ℝ) := by
    simp [MetaTaskLstmNetwork.forward, hns]
  refine ⟨?_, habs, ?_, rfl, ?_⟩
  · rw [habs]
    exact_mod_cast abs_nonneg _
  · exact abs_nonneg _
  · norm_num [MetaTaskLstmNetwork.forward, lstmNetAbsEx, MetaTaskLstmNetwork.scores,
      Linear.forward]

/-- A concrete vector weighting network in absolute-value mode over one
feature dimension. -/
def mlpNetEx : MetaTaskMLPNetwork 1 :=
  { lin1 := { weight := fun _ _ => 1, bias := fun _ => 0 }
    lin2 := { weight := fun _ _ => 1, bias := fun _ => 0 }
    use_softmax := false }

/-- Witness for C8 at the concrete absolute-value networks and batches. -/
theorem abs_mode_nonneg_no_mask_witness :
    0 ≤ lstmNetAbsEx.forward xPadEx 0 0 ∧
    lstmNetAbsEx.forward xPadEx 0 0 = ((|lstmNetAbsEx.scores xPadEx 0 0| : ℚ) : ℝ) ∧
    0 ≤ mlpNetEx.forwardAbs (fun (_ : Fin 2) (_ : Fin 1) => (0 : ℚ)) 0 ∧
    (xPadEx 0 0 = 0 ∧ lstmNetAbsEx.forward xPadEx 0 0 = 1) :=
  abs_mode_nonneg_no_mask lstmNetAbsEx rfl xPadEx 0 0 mlpNetEx
    (fun _ _ => 0) 0

end BertMaml
